import Mathlib

/-!
# Formal model of the lolcat PFP per-frame animation core

This development shallowly embeds the simulation/state layer of
`src/ParticleEffect.js`: the JavaScript `%`-based `fmod` helper, the
`PFPCard` spin/crossfade state machine, the `FloatingParticles`
forcefield displacement, respawn pass and transaction-burst controller,
and the `ParticleFrame` lifetime bookkeeping.  Machine floats are
modelled exactly over `ℚ` where the source only adds, multiplies and
compares, and over `ℝ` where the source calls `Math.sin`, `Math.sqrt`,
`Math.atan2` or `Math.cos`.
-/

section JsMathSection

variable {α : Type*} [LinearOrderedField α] [FloorRing α]

/-- Truncation toward zero, matching the rounding used by the JavaScript
remainder operator `a % b`. -/
def jsTrunc (q : α) : ℤ := if 0 ≤ q then ⌊q⌋ else ⌈q⌉

/-- The JavaScript remainder `a % b`: the result carries the sign of the
dividend `a`. -/
def jsRem (a b : α) : α := a - b * (jsTrunc (a / b) : α)

/-- The source helper `function fmod(a,b){return ((a % b)+b)%b;}`. -/
def fmod (a b : α) : α := jsRem (jsRem a b + b) b

theorem jsRem_nonneg_lt (a b : α) (hb : 0 < b) (ha : 0 ≤ a) :
    0 ≤ jsRem a b ∧ jsRem a b < b := by
  have hb' : b ≠ 0 := ne_of_gt hb
  have hq : (0 : α) ≤ a / b := div_nonneg ha hb.le
  unfold jsRem jsTrunc
  rw [if_pos hq]
  have h3 : b * (a / b) = a := by field_simp
  constructor
  · have h1 : ((⌊a / b⌋ : ℤ) : α) ≤ a / b := Int.floor_le _
    have h2 : b * ((⌊a / b⌋ : ℤ) : α) ≤ b * (a / b) :=
      mul_le_mul_of_nonneg_left h1 hb.le
    linarith
  · have h1 : a / b < ((⌊a / b⌋ : ℤ) : α) + 1 := Int.lt_floor_add_one _
    have h2 : b * (a / b) < b * (((⌊a / b⌋ : ℤ) : α) + 1) :=
      mul_lt_mul_of_pos_left h1 hb
    nlinarith

theorem jsRem_neg_le (a b : α) (hb : 0 < b) (ha : a < 0) :
    -b < jsRem a b ∧ jsRem a b ≤ 0 := by
  have hb' : b ≠ 0 := ne_of_gt hb
  have hq : a / b < 0 := div_neg_of_neg_of_pos ha hb
  unfold jsRem jsTrunc
  rw [if_neg (not_le.mpr hq)]
  have h3 : b * (a / b) = a := by field_simp
  constructor
  · have h1 : ((⌈a / b⌉ : ℤ) : α) < a / b + 1 := by
      have := Int.ceil_lt_add_one (a / b)
      exact_mod_cast this
    have h2 : b * ((⌈a / b⌉ : ℤ) : α) < b * (a / b + 1) :=
      mul_lt_mul_of_pos_left h1 hb
    nlinarith
  · have h1 : a / b ≤ ((⌈a / b⌉ : ℤ) : α) := Int.le_ceil _
    have h2 : b * (a / b) ≤ b * ((⌈a / b⌉ : ℤ) : α) :=
      mul_le_mul_of_nonneg_left h1 hb.le
    linarith

/-- For a positive modulus, `fmod` lands in `[0, b)`. -/
theorem fmod_mem (a b : α) (hb : 0 < b) : 0 ≤ fmod a b ∧ fmod a b < b := by
  unfold fmod
  rcases le_or_lt 0 a with ha | ha
  · have h := jsRem_nonneg_lt a b hb ha
    exact jsRem_nonneg_lt _ b hb (by linarith [h.1])
  · have h := jsRem_neg_le a b hb ha
    exact jsRem_nonneg_lt _ b hb (by linarith [h.1])

/-- `fmod a b` differs from `a` by an integer multiple of `b`. -/
theorem fmod_congr (a b : α) : ∃ k : ℤ, fmod a b = a - b * k := by
  refine ⟨jsTrunc (a / b) + jsTrunc ((jsRem a b + b) / b) - 1, ?_⟩
  unfold fmod jsRem
  push_cast
  ring

/-- `fmod b b = 0` for a positive modulus. -/
theorem fmod_self (b : α) (hb : 0 < b) : fmod b b = 0 := by
  have hb' : b ≠ 0 := ne_of_gt hb
  have h1 : jsRem b b = 0 := by
    unfold jsRem jsTrunc
    rw [div_self hb', if_pos (zero_le_one' α)]
    simp
  unfold fmod
  rw [h1, zero_add, h1]

end JsMathSection

/-- A three-component vector, as used for positions, velocities and the
interaction point. -/
structure Vec3 (α : Type*) where
  x : α
  y : α
  z : α
deriving DecidableEq

namespace PFPCard

/-- The rotation/crossfade state owned by the `PFPCard` component:
`currentTexture`/`nextTexture` (texture handles), `isTransitioning`,
`isSpinning`, and the `spinProgress` and `transitionProgress` refs. -/
structure CrossfadeState where
  currentTexture : Option ℕ
  nextTexture : Option ℕ
  isTransitioning : Bool
  isSpinning : Bool
  spinProgress : ℚ
  transitionProgress : ℚ
deriving DecidableEq

/-- The spin-coupled crossfade progress:
`Math.max(0, Math.min((spinProgress - crossfadeStart) / (1.0 - crossfadeStart), 1.0))`
with `crossfadeStart = 0.4`. -/
def crossfadeProgressOf (spinProgress : ℚ) : ℚ :=
  max 0 (min ((spinProgress - 0.4) / (1 - 0.4)) 1)

/-- The dead time-coupled branch of the `useFrame` crossfade code
(`transitionSpeed = 2.0`): advance `transitionProgress`, clamp at one,
finalize the swap on saturation, and write the crossfade opacities. -/
def timeCoupledStep (s : CrossfadeState) (delta : ℚ) : CrossfadeState × Option (ℚ × ℚ) :=
  let tp := s.transitionProgress + delta * 2
  let s1 :=
    if 1 ≤ tp then
      (if s.nextTexture.isSome then
        { s with currentTexture := s.nextTexture, nextTexture := none,
                 isTransitioning := false, transitionProgress := 1 }
      else { s with transitionProgress := 1 })
    else { s with transitionProgress := tp }
  (s1, some (1 - min s1.transitionProgress 1, min s1.transitionProgress 1))

/-- One frame of the texture-transition section of `PFPCard.useFrame`.
Returns the updated state together with the pair of opacities written to
the current and next texture materials this frame, when any are written. -/
def crossfadeStep (s : CrossfadeState) (delta : ℚ) : CrossfadeState × Option (ℚ × ℚ) :=
  if s.isTransitioning && s.nextTexture.isSome then
    if s.isSpinning then
      (s, some (1 - crossfadeProgressOf s.spinProgress, crossfadeProgressOf s.spinProgress))
    else if !s.isSpinning && s.nextTexture.isSome then
      ({ s with currentTexture := s.nextTexture, nextTexture := none,
                isTransitioning := false }, none)
    else
      timeCoupledStep s delta
  else (s, none)

/-- Spin-completion normalization from `PFPCard.useFrame`:
`completedRotation = spinStartRotation + 2π`,
`normalizedRotation = ((completedRotation % 2π) + 2π) % 2π`, then mapped
into `(-π, π]`.  Stated generically in the value used for π. -/
def normalizeSpinRotation {α : Type*} [LinearOrderedField α] [FloorRing α]
    (pi s : α) : α :=
  if fmod (s + 2 * pi) (2 * pi) > pi then fmod (s + 2 * pi) (2 * pi) - 2 * pi
  else fmod (s + 2 * pi) (2 * pi)

theorem normalizeSpinRotation_spec {α : Type*} [LinearOrderedField α] [FloorRing α]
    (pi s : α) (hpi : 0 < pi) :
    (-pi < normalizeSpinRotation pi s ∧ normalizeSpinRotation pi s ≤ pi) ∧
    ∃ k : ℤ, normalizeSpinRotation pi s = s + 2 * pi * k := by
  have h2 : (0 : α) < 2 * pi := by linarith
  have hm := fmod_mem (s + 2 * pi) (2 * pi) h2
  obtain ⟨k0, hk0⟩ := fmod_congr (s + 2 * pi) (2 * pi)
  unfold normalizeSpinRotation
  split_ifs with hgt
  · refine ⟨⟨by linarith [hm.1, hm.2], by linarith [hm.1, hm.2]⟩, ⟨-k0, ?_⟩⟩
    push_cast
    linear_combination hk0
  · refine ⟨⟨by linarith [hm.1], by linarith [not_lt.mp hgt]⟩, ⟨1 - k0, ?_⟩⟩
    push_cast
    linear_combination hk0

end PFPCard

namespace FloatingParticles

/-- `const PARTICLE_LIFETIME = 4` (seconds) in the floating-particle file. -/
noncomputable def PARTICLE_LIFETIME : ℝ := 4

/-- Euclidean distance `Math.sqrt(dx*dx + dy*dy + dz*dz)` between two points. -/
noncomputable def dist3 (a b : Vec3 ℝ) : ℝ :=
  Real.sqrt ((a.x - b.x) ^ 2 + (a.y - b.y) ^ 2 + (a.z - b.z) ^ 2)

/-- `Math.atan2(y, x)`. -/
noncomputable def jsAtan2 (y x : ℝ) : ℝ :=
  if 0 < x then Real.arctan (y / x)
  else if x < 0 then
    (if 0 ≤ y then Real.arctan (y / x) + Real.pi else Real.arctan (y / x) - Real.pi)
  else if 0 < y then Real.pi / 2
  else if y < 0 then -(Real.pi / 2)
  else 0

/-- `spatialNoise = Math.sin(ox*8.314 + oy*5.926 + oz*7.847 + time*0.7)*0.5 + 0.5`. -/
noncomputable def spatialNoise (base : Vec3 ℝ) (time : ℝ) : ℝ :=
  Real.sin (base.x * 8.314 + base.y * 5.926 + base.z * 7.847 + time * 0.7) * 0.5 + 0.5

/-- `temporalNoise = Math.sin(time*1.2 + ox*3.141 + oy*2.718)*0.5 + 0.5`. -/
noncomputable def temporalNoise (base : Vec3 ℝ) (time : ℝ) : ℝ :=
  Real.sin (time * 1.2 + base.x * 3.141 + base.y * 2.718) * 0.5 + 0.5

/-- `detailNoise = Math.sin(ox*23.456 + oy*17.321 + oz*11.789 + time*2.1)*0.5 + 0.5`. -/
noncomputable def detailNoise (base : Vec3 ℝ) (time : ℝ) : ℝ :=
  Real.sin (base.x * 23.456 + base.y * 17.321 + base.z * 11.789 + time * 2.1) * 0.5 + 0.5

/-- `dirNoise = Math.sin(Math.atan2(dy, dx)*4.0 + time*0.8)*0.5 + 0.5`. -/
noncomputable def dirNoise (dy dx time : ℝ) : ℝ :=
  Real.sin (jsAtan2 dy dx * 4.0 + time * 0.8) * 0.5 + 0.5

/-- Weighted combination of the four noise layers (weights 0.4/0.3/0.2/0.1). -/
noncomputable def combinedNoise (base mouse : Vec3 ℝ) (time : ℝ) : ℝ :=
  spatialNoise base time * 0.4 + temporalNoise base time * 0.3 +
    detailNoise base time * 0.2 + dirNoise (base.y - mouse.y) (base.x - mouse.x) time * 0.1

/-- `randomFactor = combinedNoise * 0.7 + 0.3`. -/
noncomputable def randomFactor (base mouse : Vec3 ℝ) (time : ℝ) : ℝ :=
  combinedNoise base mouse time * 0.7 + 0.3

/-- `force = Math.pow(1 - dist / radius, 2)`. -/
noncomputable def force (dist radius : ℝ) : ℝ := (1 - dist / radius) ^ 2

/-- The per-respawn forcefield displacement from `FloatingParticles.useFrame`:
inside the radius (and past the `1e-6` near-zero guard) push the original
base position away from the mouse by `strength * force * randomFactor`
along the normalized offset; otherwise return the base position unchanged.
The noise layers receive `time = globalTime * 0.3` exactly as in the source. -/
noncomputable def displace (base mouse : Vec3 ℝ) (radius strength globalTime : ℝ) : Vec3 ℝ :=
  if dist3 base mouse < radius ∧ 1 / 1000000 < dist3 base mouse then
    { x := base.x + (base.x - mouse.x) * (1 / dist3 base mouse) *
        (strength * force (dist3 base mouse) radius * randomFactor base mouse (globalTime * 0.3)),
      y := base.y + (base.y - mouse.y) * (1 / dist3 base mouse) *
        (strength * force (dist3 base mouse) radius * randomFactor base mouse (globalTime * 0.3)),
      z := base.z + (base.z - mouse.z) * (1 / dist3 base mouse) *
        (strength * force (dist3 base mouse) radius * randomFactor base mouse (globalTime * 0.3)) }
  else base

/-- The respawn loop of `FloatingParticles.useFrame`: a particle whose age
`fmod(globalTime - lifetimes[i], PARTICLE_LIFETIME)` wrapped within the last
frame (`age < delta`) is re-seeded from its immutable original position via
`displace`; every other slot of the position buffer is left as it currently is. -/
noncomputable def respawnPass (orig cur : List (Vec3 ℝ)) (lifetimes : List ℝ)
    (mouse : Vec3 ℝ) (radius strength globalTime delta : ℝ) : List (Vec3 ℝ) :=
  match orig, cur, lifetimes with
  | o :: os, c :: cs, l :: ls =>
      (if fmod (globalTime - l) PARTICLE_LIFETIME < delta then
        displace o mouse radius strength globalTime
      else c) :: respawnPass os cs ls mouse radius strength globalTime delta
  | _, _, _ => []

/-- The transaction kinds compared against in the source (`'buy'`, `'sell'`,
anything else). -/
inductive TxKind
  | buy
  | sell
  | other
deriving DecidableEq

/-- One short-lived burst particle. -/
structure BurstParticle where
  position : Vec3 ℝ
  velocity : Vec3 ℝ
  life : ℝ
  maxLife : ℝ
  size : ℝ

/-- The `burstStateRef` contents. -/
structure BurstState where
  isActive : Bool
  startTime : ℝ
  type : Option TxKind
  burstParticles : List BurstParticle

/-- The transaction-related material uniforms. -/
structure ParticleUniforms where
  uTransactionType : ℝ
  uTransactionIntensity : ℝ

/-- The nested ternary writing `uTransactionType`:
`type === 'buy' ? 1.0 : (type === 'sell' ? 2.0 : 0.0)`. -/
noncomputable def typeCode (t : Option TxKind) : ℝ :=
  match t with
  | some TxKind.buy => 1
  | some TxKind.sell => 2
  | _ => 0

/-- `const burstDuration = effectConfig?.burstDuration || 1.5` — the JS `||`
falls back to `1.5` when the config is missing or the value is falsy (`0`). -/
noncomputable def burstDurationOf (cfg : Option ℝ) : ℝ :=
  match cfg with
  | none => 1.5
  | some d => if d = 0 then 1.5 else d

/-- `Math.max(0, 1 - burstElapsed / burstDuration)`. -/
noncomputable def burstIntensity (elapsed duration : ℝ) : ℝ :=
  max 0 (1 - elapsed / duration)

/-- Per-tick physics of one burst particle: gravity on `velocity.y`, air
resistance `*= 0.98`, Euler position update, and life decay `delta / maxLife`. -/
noncomputable def stepBurstParticle (delta : ℝ) (p : BurstParticle) : BurstParticle :=
  { p with
    velocity := ⟨p.velocity.x * 0.98, (p.velocity.y - delta * 2) * 0.98, p.velocity.z * 0.98⟩,
    position := ⟨p.position.x + p.velocity.x * 0.98 * delta,
                 p.position.y + (p.velocity.y - delta * 2) * 0.98 * delta,
                 p.position.z + p.velocity.z * 0.98 * delta⟩,
    life := p.life - delta / p.maxLife }

/-- The burst section of `FloatingParticles.useFrame`: while active and
`burstElapsed < burstDuration`, integrate the burst particles and write the
transaction uniforms; on the first frame with `burstElapsed >= burstDuration`,
clear `isActive` and the particle list (leaving the uniforms untouched);
while inactive, do nothing.  `now` is the `Date.now()` sample in milliseconds. -/
noncomputable def burstFrameStep (cfg : Option ℝ) (s : BurstState) (u : ParticleUniforms)
    (now delta : ℝ) : BurstState × ParticleUniforms :=
  if s.isActive then
    if (now - s.startTime) / 1000 < burstDurationOf cfg then
      ({ s with burstParticles := s.burstParticles.map (stepBurstParticle delta) },
       { uTransactionType := typeCode s.type,
         uTransactionIntensity :=
           burstIntensity ((now - s.startTime) / 1000) (burstDurationOf cfg) })
    else
      ({ s with isActive := false, burstParticles := [] }, u)
  else (s, u)

/-- The external transaction event (`transactionEffect` prop). -/
structure TransactionEffect where
  isActive : Bool
  type : Option TxKind

/-- The 50 synthesized burst particles: `angle = (i/50)*2π`, randomized
elevation, speed, max life and size (`rand i` supplies the four
`Math.random()` draws of iteration `i`), all emitted from `(0, -2, 0)`. -/
noncomputable def mkBurstParticles (rand : ℕ → ℝ × ℝ × ℝ × ℝ) : List BurstParticle :=
  (List.range 50).map fun (i : ℕ) =>
    { position := ⟨0, -2, 0⟩,
      velocity :=
        ⟨Real.cos (((i : ℝ) / 50) * Real.pi * 2) *
            Real.cos (((rand i).1 - 0.5) * Real.pi * 0.5) * (2 + (rand i).2.1 * 3),
          Real.sin (((rand i).1 - 0.5) * Real.pi * 0.5) * (2 + (rand i).2.1 * 3) * 0.5,
          Real.sin (((i : ℝ) / 50) * Real.pi * 2) *
            Real.cos (((rand i).1 - 0.5) * Real.pi * 0.5) * (2 + (rand i).2.1 * 3)⟩,
      life := 1,
      maxLife := 0.8 + (rand i).2.2.1 * 0.4,
      size := 2 + (rand i).2.2.2 * 4 }

/-- The burst-initializing `useEffect`: a transaction trigger starts a new
burst only while no burst is active; otherwise the state is left untouched. -/
noncomputable def handleTransactionTrigger (effect : Option TransactionEffect)
    (s : BurstState) (now : ℝ) (rand : ℕ → ℝ × ℝ × ℝ × ℝ) : BurstState :=
  match effect with
  | some e =>
      if e.isActive && !s.isActive then
        { isActive := true, startTime := now, type := e.type,
          burstParticles := mkBurstParticles rand }
      else s
  | none => s

/-- Particle initialization draws `lifetimes[i] = Math.random() * PARTICLE_LIFETIME`. -/
noncomputable def initLifetime (r : ℝ) : ℝ := r * PARTICLE_LIFETIME

end FloatingParticles

namespace ParticleFrame

/-- `const PARTICLE_LIFETIME = 6` (seconds) in the particle-frame file. -/
def PARTICLE_LIFETIME : ℚ := 6

/-- `generateFrameGeometry` draws `lifetimes[i] = Math.random() * PARTICLE_LIFETIME`. -/
def initLifetime (r : ℚ) : ℚ := r * PARTICLE_LIFETIME

/-- The lifetime bookkeeping of the `ParticleFrame.useFrame` respawn loop:
a just-respawned particle (`age < delta`) has its lifetime attribute
overwritten with the current global time while bursting
(`isGenerating && wasBursting`); in every other situation the attribute is
left unchanged. -/
def lifetimeRespawnUpdate (isGenerating wasBursting : Bool)
    (globalTime delta lt : ℚ) : ℚ :=
  if fmod (globalTime - lt) PARTICLE_LIFETIME < delta then
    (if isGenerating && wasBursting then globalTime else lt)
  else lt

end ParticleFrame

/-- C4: for every real `spinStartRotation`, the spin-completion
normalization `((spinStartRotation + 2π) mod 2π)` mapped into `(-π, π]`
produces a `baseRotationY` that lies in `(-π, π]` and is congruent to
`spinStartRotation` modulo `2π`. -/
theorem spin_normalization_range_and_congruence (s : ℝ) :
    (-Real.pi < PFPCard.normalizeSpinRotation Real.pi s ∧
      PFPCard.normalizeSpinRotation Real.pi s ≤ Real.pi) ∧
    ∃ k : ℤ, PFPCard.normalizeSpinRotation Real.pi s = s + 2 * Real.pi * k :=
  PFPCard.normalizeSpinRotation_spec Real.pi s Real.pi_pos

/-- C1: when a new texture is pending while `isTransitioning` holds and the
card is not spinning, the frame code finalizes the swap immediately — it
sets `currentTexture` to the pending texture and ends the transition on the
very first frame, without ever advancing `transitionProgress` by
`delta * transitionSpeed` or writing intermediate crossfade opacities.  The
time-coupled branch (`transitionSpeed = 2.0`) is unreachable, so the
transition does not take the specified 0.5 s. -/
theorem crossfade_completes_immediately_when_not_spinning
    (s : PFPCard.CrossfadeState) (delta : ℚ) (n : ℕ)
    (ht : s.isTransitioning = true) (hn : s.nextTexture = some n)
    (hsp : s.isSpinning = false) :
    PFPCard.crossfadeStep s delta =
      ({ s with currentTexture := some n, nextTexture := none,
                isTransitioning := false }, none) := by
  unfold PFPCard.crossfadeStep
  rw [ht, hn, hsp]
  simp

/-- Witness for C1 at a concrete state: texture `1` pending over texture `0`,
card not spinning, `transitionProgress = 0`, frame delta `0.01`; the step
completes the swap at once and writes no opacities. -/
theorem crossfade_completes_immediately_when_not_spinning_witness :
    PFPCard.crossfadeStep ⟨some 0, some 1, true, false, 0, 0⟩ (1 / 100) =
      (⟨some 1, none, false, false, 0, 0⟩, none) :=
  crossfade_completes_immediately_when_not_spinning _ (1 / 100) 1 rfl rfl rfl

theorem timeCoupledStep_opacity_sum (s : PFPCard.CrossfadeState) (delta c n : ℚ)
    (h : (PFPCard.timeCoupledStep s delta).2 = some (c, n)) : c + n = 1 := by
  unfold PFPCard.timeCoupledStep at h
  simp only [Option.some_inj, Prod.mk.injEq] at h
  obtain ⟨hc, hn⟩ := h
  rw [← hc, ← hn]
  ring

/-- C5: whenever the transition section of `PFPCard.useFrame` writes the two
material opacities during a transition, they sum to exactly 1 — the current
texture gets `1 - progress` and the next texture gets `progress`, in the
spin-coupled branch and in the time-coupled branch alike. -/
theorem crossfade_opacity_conservation (s : PFPCard.CrossfadeState) (delta c n : ℚ)
    (h : (PFPCard.crossfadeStep s delta).2 = some (c, n)) : c + n = 1 := by
  unfold PFPCard.crossfadeStep at h
  split_ifs at h with h1 h2 h3
  · simp only [Option.some_inj, Prod.mk.injEq] at h
    obtain ⟨hc, hn⟩ := h
    rw [← hc, ← hn]
    ring
  · exact timeCoupledStep_opacity_sum s delta c n h

/-- Witness for C5 at a concrete spinning transition: `spinProgress = 1/2`
gives crossfade progress `1/6`, and the written opacities `5/6` and `1/6`
sum to 1. -/
theorem crossfade_opacity_conservation_witness :
    (PFPCard.crossfadeStep ⟨some 0, some 1, true, true, 1 / 2, 0⟩ 0).2 =
        some (5 / 6, 1 / 6) ∧
      (5 / 6 : ℚ) + 1 / 6 = 1 := by
  have hcp : PFPCard.crossfadeProgressOf (1 / 2) = 1 / 6 := by
    unfold PFPCard.crossfadeProgressOf
    rw [show ((1 : ℚ) / 2 - 0.4) / (1 - 0.4) = 1 / 6 by norm_num]
    rw [min_eq_left (by norm_num : (1 / 6 : ℚ) ≤ 1),
        max_eq_right (by norm_num : (0 : ℚ) ≤ 1 / 6)]
  have hstep : (PFPCard.crossfadeStep ⟨some 0, some 1, true, true, 1 / 2, 0⟩ 0).2 =
      some (5 / 6, 1 / 6) := by
    unfold PFPCard.crossfadeStep
    simp
    norm_num [hcp]
  exact ⟨hstep,
    crossfade_opacity_conservation ⟨some 0, some 1, true, true, 1 / 2, 0⟩ 0
      (5 / 6) (1 / 6) hstep⟩

namespace FloatingParticles

theorem burstFrameStep_active_lt (cfg : Option ℝ) (s : BurstState) (u : ParticleUniforms)
    (now delta : ℝ) (hact : s.isActive = true)
    (he : (now - s.startTime) / 1000 < burstDurationOf cfg) :
    burstFrameStep cfg s u now delta =
      ({ s with burstParticles := s.burstParticles.map (stepBurstParticle delta) },
       { uTransactionType := typeCode s.type,
         uTransactionIntensity :=
           burstIntensity ((now - s.startTime) / 1000) (burstDurationOf cfg) }) := by
  unfold burstFrameStep
  split_ifs
  rfl

theorem burstFrameStep_active_ge (cfg : Option ℝ) (s : BurstState) (u : ParticleUniforms)
    (now delta : ℝ) (hact : s.isActive = true)
    (hge : burstDurationOf cfg ≤ (now - s.startTime) / 1000) :
    burstFrameStep cfg s u now delta =
      ({ s with isActive := false, burstParticles := [] }, u) := by
  have hnlt : ¬ (now - s.startTime) / 1000 < burstDurationOf cfg := not_lt.mpr hge
  unfold burstFrameStep
  split_ifs
  rfl

theorem burstFrameStep_inactive (cfg : Option ℝ) (s : BurstState) (u : ParticleUniforms)
    (now delta : ℝ) (hact : s.isActive = false) :
    burstFrameStep cfg s u now delta = (s, u) := by
  have hnact : ¬ s.isActive = true := by rw [hact]; simp
  unfold burstFrameStep
  split_ifs
  rfl

theorem burstIntensity_of_lt (e d : ℝ) (hd : 0 < d) (he : e < d) :
    burstIntensity e d = 1 - e / d := by
  unfold burstIntensity
  have h : 0 ≤ 1 - e / d := by
    have := (div_lt_one hd).mpr he
    linarith
  exact max_eq_right h

/-- C2: while a burst is active with `elapsed < burstDuration`, the frame
step writes intensity `max(0, 1 − elapsed/burstDuration)` (which equals
`1 − elapsed/burstDuration`) and keeps the burst active; the intensity is
strictly decreasing on `[0, burstDuration]` with value 0 exactly at
`elapsed = burstDuration`; and on the first frame with
`elapsed ≥ burstDuration` the controller deactivates with the burst
particle list emptied. -/
theorem burst_intensity_and_completion (cfg : Option ℝ) (s : BurstState)
    (u : ParticleUniforms) (now delta : ℝ)
    (hact : s.isActive = true) (hd : 0 < burstDurationOf cfg) :
    ((now - s.startTime) / 1000 < burstDurationOf cfg →
      (burstFrameStep cfg s u now delta).2.uTransactionIntensity =
          burstIntensity ((now - s.startTime) / 1000) (burstDurationOf cfg) ∧
        burstIntensity ((now - s.startTime) / 1000) (burstDurationOf cfg) =
          1 - (now - s.startTime) / 1000 / burstDurationOf cfg ∧
        (burstFrameStep cfg s u now delta).1.isActive = true ∧
        (burstFrameStep cfg s u now delta).1.burstParticles.length =
          s.burstParticles.length) ∧
    (burstDurationOf cfg ≤ (now - s.startTime) / 1000 →
      (burstFrameStep cfg s u now delta).1.isActive = false ∧
        (burstFrameStep cfg s u now delta).1.burstParticles = []) ∧
    (∀ e1 e2 : ℝ, 0 ≤ e1 → e1 < e2 → e2 ≤ burstDurationOf cfg →
      burstIntensity e2 (burstDurationOf cfg) <
        burstIntensity e1 (burstDurationOf cfg)) ∧
    burstIntensity (burstDurationOf cfg) (burstDurationOf cfg) = 0 := by
  refine ⟨?_, ?_, ?_, ?_⟩
  · intro he
    rw [burstFrameStep_active_lt cfg s u now delta hact he]
    exact ⟨rfl, burstIntensity_of_lt _ _ hd he, hact, by simp⟩
  · intro hge
    rw [burstFrameStep_active_ge cfg s u now delta hact hge]
    exact ⟨rfl, rfl⟩
  · intro e1 e2 h0 h12 h2d
    have he1 : e1 < burstDurationOf cfg := lt_of_lt_of_le h12 h2d
    have hx : 0 < 1 - e1 / burstDurationOf cfg := by
      have := (div_lt_one hd).mpr he1
      linarith
    have hdiv : e1 / burstDurationOf cfg < e2 / burstDurationOf cfg := by gcongr
    rw [burstIntensity_of_lt e1 _ hd he1]
    unfold burstIntensity
    exact max_lt hx (by linarith)
  · unfold burstIntensity
    rw [div_self (ne_of_gt hd)]
    simp

/-- Witness for C2: a burst of kind `buy` started at time 0, sampled at
`now = 0` (elapsed 0 < default duration 1.5) stays active after the step. -/
theorem burst_intensity_and_completion_witness :
    (burstFrameStep none ⟨true, 0, some TxKind.buy, []⟩ ⟨0, 0⟩ 0 0).1.isActive = true :=
  ((burst_intensity_and_completion none ⟨true, 0, some TxKind.buy, []⟩ ⟨0, 0⟩ 0 0 rfl
      (by norm_num [burstDurationOf])).1
    (by norm_num [burstDurationOf])).2.2.1

/-- C10: on the completing frame (`elapsed ≥ burstDuration`) only `isActive`
and the burst particle list are reset and the transaction uniforms are left
exactly as they were; while idle the whole state/uniform pair is untouched;
and every uniform write made while the burst is active carries a strictly
positive intensity together with the burst's kind code. -/
theorem burst_uniforms_retained_after_completion (cfg : Option ℝ) (s : BurstState)
    (u : ParticleUniforms) (now delta : ℝ) :
    (s.isActive = true → burstDurationOf cfg ≤ (now - s.startTime) / 1000 →
      (burstFrameStep cfg s u now delta).2 = u ∧
        (burstFrameStep cfg s u now delta).1 =
          { s with isActive := false, burstParticles := [] }) ∧
    (s.isActive = false → burstFrameStep cfg s u now delta = (s, u)) ∧
    (s.isActive = true → (now - s.startTime) / 1000 < burstDurationOf cfg →
      0 < burstDurationOf cfg →
      0 < (burstFrameStep cfg s u now delta).2.uTransactionIntensity ∧
        (burstFrameStep cfg s u now delta).2.uTransactionType = typeCode s.type) := by
  refine ⟨?_, ?_, ?_⟩
  · intro hact hge
    rw [burstFrameStep_active_ge cfg s u now delta hact hge]
    exact ⟨rfl, rfl⟩
  · intro hact
    exact burstFrameStep_inactive cfg s u now delta hact
  · intro hact he hd
    rw [burstFrameStep_active_lt cfg s u now delta hact he]
    refine ⟨?_, rfl⟩
    have hpos : 0 < 1 - (now - s.startTime) / 1000 / burstDurationOf cfg := by
      have := (div_lt_one hd).mpr he
      linarith
    calc (0 : ℝ) < 1 - (now - s.startTime) / 1000 / burstDurationOf cfg := hpos
      _ ≤ burstIntensity ((now - s.startTime) / 1000) (burstDurationOf cfg) :=
          le_max_right 0 _

/-- Witness for C10: with no active burst, the frame step returns state and
uniforms entirely unchanged. -/
theorem burst_uniforms_retained_after_completion_witness :
    burstFrameStep none ⟨false, 0, none, []⟩ ⟨3, 1 / 2⟩ 5 1 =
      (⟨false, 0, none, []⟩, ⟨3, 1 / 2⟩) :=
  (burst_uniforms_retained_after_completion none ⟨false, 0, none, []⟩ ⟨3, 1 / 2⟩ 5 1).2.1 rfl

/-- C8: a transaction trigger that arrives while a burst is already active
leaves the burst state completely unchanged (the `useEffect` guard
`!burstStateRef.current.isActive` rejects it), so at most one burst is ever
active at a time. -/
theorem transaction_trigger_ignored_while_active (effect : Option TransactionEffect)
    (s : BurstState) (now : ℝ) (rand : ℕ → ℝ × ℝ × ℝ × ℝ)
    (hact : s.isActive = true) :
    handleTransactionTrigger effect s now rand = s := by
  cases effect with
  | none => rfl
  | some e =>
    unfold handleTransactionTrigger
    rw [hact]
    simp

/-- Witness for C8: an active `buy` trigger arriving while a `buy` burst is
already active leaves the state untouched. -/
theorem transaction_trigger_ignored_while_active_witness :
    handleTransactionTrigger (some ⟨true, some TxKind.buy⟩)
        ⟨true, 0, some TxKind.buy, []⟩ 99 (fun _ => (0, 0, 0, 0)) =
      ⟨true, 0, some TxKind.buy, []⟩ :=
  transaction_trigger_ignored_while_active _ _ _ _ rfl

end FloatingParticles

namespace FloatingParticles

theorem dist3_self (p : Vec3 ℝ) : dist3 p p = 0 := by
  unfold dist3
  simp

theorem noise_unit (t : ℝ) : 0 ≤ Real.sin t * 0.5 + 0.5 ∧ Real.sin t * 0.5 + 0.5 ≤ 1 := by
  have h1 := Real.neg_one_le_sin t
  have h2 := Real.sin_le_one t
  constructor <;> nlinarith

theorem spatialNoise_mem (base : Vec3 ℝ) (time : ℝ) :
    0 ≤ spatialNoise base time ∧ spatialNoise base time ≤ 1 := noise_unit _

theorem temporalNoise_mem (base : Vec3 ℝ) (time : ℝ) :
    0 ≤ temporalNoise base time ∧ temporalNoise base time ≤ 1 := noise_unit _

theorem detailNoise_mem (base : Vec3 ℝ) (time : ℝ) :
    0 ≤ detailNoise base time ∧ detailNoise base time ≤ 1 := noise_unit _

theorem dirNoise_mem (dy dx time : ℝ) :
    0 ≤ dirNoise dy dx time ∧ dirNoise dy dx time ≤ 1 := noise_unit _

/-- The four weighted noise layers give `randomFactor ∈ [0.3, 1]`. -/
theorem randomFactor_mem (base mouse : Vec3 ℝ) (time : ℝ) :
    0.3 ≤ randomFactor base mouse time ∧ randomFactor base mouse time ≤ 1 := by
  have h1 := spatialNoise_mem base time
  have h2 := temporalNoise_mem base time
  have h3 := detailNoise_mem base time
  have h4 := dirNoise_mem (base.y - mouse.y) (base.x - mouse.x) time
  unfold randomFactor combinedNoise
  constructor <;> nlinarith [h1.1, h1.2, h2.1, h2.2, h3.1, h3.2, h4.1, h4.2]

/-- C6: for every base position, interaction point, `radius > 0`, time and
`strength ≥ 0`, the respawn displacement moves the written seed position by
at most `strength`: the quadratic falloff keeps `force ∈ [0, 1]`, the four
unit-interval noise layers with weights summing to one keep
`randomFactor ∈ [0.3, 1]`, so the displacement magnitude
`strength * force * randomFactor` is at most `strength`. -/
theorem forcefield_displacement_bound (base mouse : Vec3 ℝ)
    (radius strength globalTime : ℝ) (hr : 0 < radius) (hs : 0 ≤ strength) :
    dist3 (displace base mouse radius strength globalTime) base ≤ strength := by
  unfold displace
  split_ifs with h
  case neg =>
    rw [dist3_self]
    exact hs
  case pos =>
  obtain ⟨hlt, hgt⟩ := h
  set d := dist3 base mouse with hdd
  have hdpos : (0 : ℝ) < d := lt_trans (by norm_num) hgt
  have hd0 : d ≠ 0 := ne_of_gt hdpos
  have hrf := randomFactor_mem base mouse (globalTime * 0.3)
  have hforce0 : 0 ≤ force d radius := by unfold force; positivity
  have hforce1 : force d radius ≤ 1 := by
    unfold force
    have hd1 : 0 < d / radius := div_pos hdpos hr
    have hd2 : d / radius < 1 := (div_lt_one hr).mpr hlt
    nlinarith
  set D := strength * force d radius * randomFactor base mouse (globalTime * 0.3) with hDdef
  have hD0 : 0 ≤ D := by
    have h30 : (0 : ℝ) ≤ randomFactor base mouse (globalTime * 0.3) := by linarith [hrf.1]
    exact mul_nonneg (mul_nonneg hs hforce0) h30
  have hDle : D ≤ strength := by
    rw [hDdef]
    have hsf0 : 0 ≤ strength * force d radius := mul_nonneg hs hforce0
    have h1 : strength * force d radius ≤ strength := by nlinarith
    have h2 : strength * force d radius * randomFactor base mouse (globalTime * 0.3) ≤
        strength * force d radius * 1 :=
      mul_le_mul_of_nonneg_left hrf.2 hsf0
    rw [mul_one] at h2
    linarith
  have hS : (base.x - mouse.x) ^ 2 + (base.y - mouse.y) ^ 2 + (base.z - mouse.z) ^ 2 = d ^ 2 := by
    rw [hdd]
    unfold dist3
    rw [Real.sq_sqrt (by positivity)]
  unfold dist3
  dsimp only
  have harg :
      (base.x + (base.x - mouse.x) * (1 / d) * D - base.x) ^ 2 +
        (base.y + (base.y - mouse.y) * (1 / d) * D - base.y) ^ 2 +
        (base.z + (base.z - mouse.z) * (1 / d) * D - base.z) ^ 2 = D ^ 2 := by
    have h1 :
        (base.x + (base.x - mouse.x) * (1 / d) * D - base.x) ^ 2 +
          (base.y + (base.y - mouse.y) * (1 / d) * D - base.y) ^ 2 +
          (base.z + (base.z - mouse.z) * (1 / d) * D - base.z) ^ 2 =
        ((base.x - mouse.x) ^ 2 + (base.y - mouse.y) ^ 2 + (base.z - mouse.z) ^ 2) *
          (1 / d * D) ^ 2 := by ring
    have h2 : d * (1 / d) = 1 := by field_simp
    rw [h1, hS]
    calc d ^ 2 * (1 / d * D) ^ 2 = (d * (1 / d)) ^ 2 * D ^ 2 := by ring
      _ = D ^ 2 := by rw [h2]; ring
  rw [harg, Real.sqrt_sq hD0]
  exact hDle

/-- Witness for C6: a point at distance 2 from the interaction source with
radius 1 and strength 1 moves by at most 1. -/
theorem forcefield_displacement_bound_witness :
    (0 : ℝ) < 1 ∧ (0 : ℝ) ≤ 1 ∧
      dist3 (displace ⟨0, 0, 0⟩ ⟨2, 0, 0⟩ 1 1 0) ⟨0, 0, 0⟩ ≤ 1 :=
  ⟨by norm_num, by norm_num,
    forcefield_displacement_bound ⟨0, 0, 0⟩ ⟨2, 0, 0⟩ 1 1 0 (by norm_num) (by norm_num)⟩

theorem displace_id_of_out (base mouse : Vec3 ℝ) (radius strength globalTime : ℝ)
    (h : radius ≤ dist3 base mouse ∨ dist3 base mouse ≤ 1 / 1000000) :
    displace base mouse radius strength globalTime = base := by
  unfold displace
  rw [if_neg]
  rintro ⟨h1, h2⟩
  rcases h with h | h
  · linarith
  · linarith

/-- C7: a respawn writes the base position back unchanged whenever the base
position is at distance at least `radius` from the interaction source, and
likewise whenever that distance is below the near-zero guard `1e-6` — the
displacement step is the identity outside the radius and at the
division-by-zero guard. -/
theorem forcefield_boundary_identity (base mouse : Vec3 ℝ)
    (radius strength globalTime : ℝ)
    (h : radius ≤ dist3 base mouse ∨ dist3 base mouse < 1 / 1000000) :
    displace base mouse radius strength globalTime = base :=
  displace_id_of_out base mouse radius strength globalTime (h.imp id le_of_lt)

/-- Witness for C7: with the interaction point exactly on the base position
the distance is 0 (below the guard) and the displacement is the identity. -/
theorem forcefield_boundary_identity_witness :
    dist3 ⟨0, 0, 0⟩ ⟨0, 0, 0⟩ < 1 / 1000000 ∧
      displace ⟨0, 0, 0⟩ ⟨0, 0, 0⟩ 1 1 0 = ⟨0, 0, 0⟩ := by
  have hd : dist3 (⟨0, 0, 0⟩ : Vec3 ℝ) ⟨0, 0, 0⟩ = 0 := dist3_self _
  have hlt : dist3 (⟨0, 0, 0⟩ : Vec3 ℝ) ⟨0, 0, 0⟩ < 1 / 1000000 := by
    rw [hd]
    norm_num
  exact ⟨hlt, forcefield_boundary_identity _ _ _ _ _ (Or.inr hlt)⟩

/-- C9: the respawn pass reads only the immutable original positions, never
the current (mutated) position buffer: whatever the current buffer holds,
a particle that respawns this frame with the interaction point out of range
(distance ≥ radius or ≤ 1e-6) is written back exactly its original base
position — displacement never accumulates across respawn cycles. -/
theorem respawn_reseeds_from_originals (orig cur : List (Vec3 ℝ)) (lifetimes : List ℝ)
    (mouse : Vec3 ℝ) (radius strength globalTime delta : ℝ) (i : ℕ)
    (horig : i < orig.length) (hcur : i < cur.length) (hlt : i < lifetimes.length)
    (hresp : fmod (globalTime - lifetimes[i]) PARTICLE_LIFETIME < delta)
    (hout : radius ≤ dist3 orig[i] mouse ∨ dist3 orig[i] mouse ≤ 1 / 1000000) :
    (respawnPass orig cur lifetimes mouse radius strength globalTime delta)[i]? =
      some orig[i] := by
  induction orig generalizing cur lifetimes i with
  | nil => simp at horig
  | cons o os ih =>
    cases cur with
    | nil => simp at hcur
    | cons c cs =>
      cases lifetimes with
      | nil => simp at hlt
      | cons l ls =>
        cases i with
        | zero =>
          simp only [List.getElem_cons_zero] at hresp hout
          simp only [respawnPass, List.getElem?_cons_zero, List.getElem_cons_zero]
          rw [if_pos hresp,
            displace_id_of_out o mouse radius strength globalTime hout]
        | succ n =>
          simp only [List.getElem_cons_succ] at hresp hout
          have ho : n < os.length := by simpa using horig
          have hc : n < cs.length := by simpa using hcur
          have hl : n < ls.length := by simpa using hlt
          simp only [respawnPass, List.getElem?_cons_succ, List.getElem_cons_succ]
          exact ih cs ls n ho hc hl hresp hout

/-- Witness for C9: a single particle whose current buffer entry has drifted
to `(5,5,5)` respawns at global time 4 (its age just wrapped) with the
interaction point sitting on its original base position (distance 0); the
pass writes back the original `(0,0,0)`, not the drifted value. -/
theorem respawn_reseeds_from_originals_witness :
    fmod ((4 : ℝ) - 0) PARTICLE_LIFETIME < 1 ∧
    dist3 ⟨0, 0, 0⟩ ⟨0, 0, 0⟩ ≤ 1 / 1000000 ∧
    (respawnPass [⟨0, 0, 0⟩] [⟨5, 5, 5⟩] [(0 : ℝ)] ⟨0, 0, 0⟩ 1 1 4 1)[0]? =
      some ⟨0, 0, 0⟩ := by
  have hf : fmod ((4 : ℝ) - 0) PARTICLE_LIFETIME < 1 := by
    rw [show (4 : ℝ) - 0 = 4 by norm_num,
      show PARTICLE_LIFETIME = (4 : ℝ) from rfl,
      fmod_self (4 : ℝ) (by norm_num)]
    norm_num
  have hdz : dist3 (⟨0, 0, 0⟩ : Vec3 ℝ) ⟨0, 0, 0⟩ ≤ 1 / 1000000 := by
    rw [dist3_self]
    norm_num
  refine ⟨hf, hdz, ?_⟩
  have h := respawn_reseeds_from_originals [⟨0, 0, 0⟩] [⟨5, 5, 5⟩] [(0 : ℝ)]
    ⟨0, 0, 0⟩ 1 1 4 1 0 (by simp) (by simp) (by simp)
    (by simpa using hf) (Or.inr (by simpa using hdz))
  simpa using h

end FloatingParticles

theorem jsRem_61_10 : jsRem ((61 : ℚ) / 10) 6 = 1 / 10 := by
  unfold jsRem jsTrunc
  rw [show ((61 : ℚ) / 10) / 6 = 61 / 60 by norm_num]
  rw [if_pos (by norm_num : (0 : ℚ) ≤ 61 / 60)]
  rw [show ⌊(61 : ℚ) / 60⌋ = 1 by norm_num]
  norm_num

theorem fmod_61_10 : fmod ((61 : ℚ) / 10 - 0) ParticleFrame.PARTICLE_LIFETIME = 1 / 10 := by
  rw [show (61 : ℚ) / 10 - 0 = 61 / 10 by norm_num,
    show ParticleFrame.PARTICLE_LIFETIME = (6 : ℚ) from rfl]
  unfold fmod
  rw [jsRem_61_10, show (1 : ℚ) / 10 + 6 = 61 / 10 by norm_num, jsRem_61_10]

/-- C3 counterexample: at global time 6.1 s a frame particle with phase
offset 0 respawns (age `fmod(6.1, 6) = 0.1 < delta = 0.2`); in bursting mode
the respawn loop overwrites the lifetime attribute with the global time 6.1,
which lies outside `[0, PARTICLE_LIFETIME = 6)` — so a frame update can move
the attribute out of the claimed range. -/
theorem lifetime_attribute_leaves_range :
    ParticleFrame.lifetimeRespawnUpdate true true (61 / 10) (1 / 5) 0 = 61 / 10 ∧
    ¬ ParticleFrame.lifetimeRespawnUpdate true true (61 / 10) (1 / 5) 0 <
        ParticleFrame.PARTICLE_LIFETIME := by
  have hup : ParticleFrame.lifetimeRespawnUpdate true true (61 / 10) (1 / 5) 0 = 61 / 10 := by
    unfold ParticleFrame.lifetimeRespawnUpdate
    rw [fmod_61_10]
    rw [if_pos (by norm_num : (1 : ℚ) / 10 < 1 / 5)]
    simp
  refine ⟨hup, ?_⟩
  rw [hup, show ParticleFrame.PARTICLE_LIFETIME = (6 : ℚ) from rfl]
  norm_num

/-- C3 amended: the initial phase offsets are drawn uniformly from
`[0, PARTICLE_LIFETIME)` in both particle systems, and no frame update
outside bursting mode ever changes the attribute; but a bursting-mode
respawn (`isGenerating && wasBursting`) overwrites it with the current
global time, which leaves `[0, PARTICLE_LIFETIME)` once the global time
reaches the lifetime. -/
theorem lifetime_attribute_range_amended :
    (∀ r : ℚ, 0 ≤ r → r < 1 →
      0 ≤ ParticleFrame.initLifetime r ∧
        ParticleFrame.initLifetime r < ParticleFrame.PARTICLE_LIFETIME) ∧
    (∀ r : ℝ, 0 ≤ r → r < 1 →
      0 ≤ FloatingParticles.initLifetime r ∧
        FloatingParticles.initLifetime r < FloatingParticles.PARTICLE_LIFETIME) ∧
    (∀ (g w : Bool) (gt delta lt : ℚ), (g && w) = false →
      ParticleFrame.lifetimeRespawnUpdate g w gt delta lt = lt) ∧
    (∀ gt delta lt : ℚ,
      fmod (gt - lt) ParticleFrame.PARTICLE_LIFETIME < delta →
      ParticleFrame.lifetimeRespawnUpdate true true gt delta lt = gt) := by
  refine ⟨?_, ?_, ?_, ?_⟩
  · intro r h0 h1
    unfold ParticleFrame.initLifetime ParticleFrame.PARTICLE_LIFETIME
    constructor
    · nlinarith
    · nlinarith
  · intro r h0 h1
    unfold FloatingParticles.initLifetime FloatingParticles.PARTICLE_LIFETIME
    constructor
    · nlinarith
    · nlinarith
  · intro g w gt delta lt hgw
    unfold ParticleFrame.lifetimeRespawnUpdate
    rw [hgw]
    split_ifs with h1 h2
    · exact absurd h2 (by simp)
    · rfl
    · rfl
  · intro gt delta lt hresp
    unfold ParticleFrame.lifetimeRespawnUpdate
    rw [if_pos hresp]
    simp

/-- Witness for the amended C3: a non-bursting frame update leaves the
phase offset untouched. -/
theorem lifetime_attribute_range_amended_witness :
    ParticleFrame.lifetimeRespawnUpdate false false 0 1 3 = 3 :=
  lifetime_attribute_range_amended.2.2.1 false false 0 1 3 rfl
